import Mathlib

/-!
Verification development for the `lus-labeler` backend
(`src/backend/main.py`, `src/backend/drive_datasource.py`,
`src/backend/models.py`, `src/backend/schemas.py`).

The Python source is shallowly embedded:

* the Google Drive API (`googleapiclient`) is modelled as an oracle
  (`DriveState`) mapping a parent folder id to either a listing or a
  raised error; the pagination loop of `_list_children_folders` /
  `_list_children_files`, which accumulates pages until the token runs
  out, is collapsed into that single oracle call, since its try/except
  wraps the entire loop and no property below depends on page
  boundaries;
* the SQLAlchemy tables (`history_entries`, `users`) are lists of rows;
  a handler that commits returns the new table, and the
  `uq_patient_sequence` unique constraint of `models.py` is enforced at
  the commit point of `add_history`;
* `hashlib.sha256(...).hexdigest()` (an external library primitive) is
  abstracted as a `digest : String → String` oracle; the repository's
  own hashing code (salting, equality comparison) is embedded as is;
* Python strings are compared by Unicode code point
  (`Char.val`/`Char.toNat`), and `list.sort` / `sorted` are modelled by
  a stable insertion sort `pySort`;
* `datetime.utcnow` values and autoincrement primary keys are passed in
  explicitly as `Nat` parameters.
-/

/-! ### A stable sort modelling Python `list.sort` / `sorted` -/

/-- Insert `x` into `l` before the first element `y` with `¬ le x y`;
the building block of `pySort`. -/
def insertSorted {α : Type} (le : α → α → Bool) (x : α) : List α → List α
  | [] => [x]
  | y :: ys => if le x y then x :: y :: ys else y :: insertSorted le x ys

/-- Stable comparison sort, modelling Python's `list.sort(key=...)` and
`sorted(...)` (Python's timsort is also a stable comparison sort). -/
def pySort {α : Type} (le : α → α → Bool) : List α → List α
  | [] => []
  | x :: xs => insertSorted le x (pySort le xs)

theorem insertSorted_perm {α : Type} (le : α → α → Bool) (x : α) (l : List α) :
    (insertSorted le x l).Perm (x :: l) := by
  induction l with
  | nil => simp [insertSorted]
  | cons y ys ih =>
    simp only [insertSorted]
    split
    · exact List.Perm.refl _
    · exact (ih.cons y).trans (List.Perm.swap x y ys)

theorem pySort_perm {α : Type} (le : α → α → Bool) (l : List α) :
    (pySort le l).Perm l := by
  induction l with
  | nil => simp [pySort]
  | cons x xs ih => exact (insertSorted_perm le x (pySort le xs)).trans (ih.cons x)

theorem insertSorted_pairwise {α : Type} (le : α → α → Bool)
    (htrans : ∀ a b c, le a b = true → le b c = true → le a c = true)
    (htot : ∀ a b, le a b = true ∨ le b a = true)
    (x : α) (l : List α) (h : l.Pairwise (fun a b => le a b = true)) :
    (insertSorted le x l).Pairwise (fun a b => le a b = true) := by
  induction l with
  | nil => simp [insertSorted]
  | cons y ys ih =>
    rcases List.pairwise_cons.mp h with ⟨hy, hys⟩
    simp only [insertSorted]
    split
    case isTrue hxy =>
      refine List.pairwise_cons.mpr ⟨?_, h⟩
      intro b hb
      rcases List.mem_cons.mp hb with rfl | hbys
      · exact hxy
      · exact htrans x y b hxy (hy b hbys)
    case isFalse hxy =>
      refine List.pairwise_cons.mpr ⟨?_, ih hys⟩
      intro b hb
      have hb' : b ∈ x :: ys := (insertSorted_perm le x ys).mem_iff.mp hb
      rcases List.mem_cons.mp hb' with rfl | hbys
      · rcases htot b y with hby | hyb
        · exact absurd hby hxy
        · exact hyb
      · exact hy b hbys

theorem pySort_pairwise {α : Type} (le : α → α → Bool)
    (htrans : ∀ a b c, le a b = true → le b c = true → le a c = true)
    (htot : ∀ a b, le a b = true ∨ le b a = true) (l : List α) :
    (pySort le l).Pairwise (fun a b => le a b = true) := by
  induction l with
  | nil => simp [pySort]
  | cons x xs ih => exact insertSorted_pairwise le htrans htot x (pySort le xs) ih

/-! ### Python string primitives (code-point order, `lower`, `endswith`) -/

/-- Strict lexicographic order on code-point sequences: Python's `<` on
strings. -/
def charListLt : List Char → List Char → Bool
  | [], [] => false
  | [], _ :: _ => true
  | _ :: _, [] => false
  | a :: as, b :: bs =>
    if a.toNat < b.toNat then true
    else if b.toNat < a.toNat then false
    else charListLt as bs

/-- Python's `a <= b` on strings, as used by `sorted` / `list.sort`. -/
def pyStrLe (a b : String) : Bool := !(charListLt b.data a.data)

theorem charListLt_irrefl (l : List Char) : charListLt l l = false := by
  induction l with
  | nil => rfl
  | cons a as ih => simp [charListLt, ih]

theorem charListLt_trans (l₁ l₂ l₃ : List Char)
    (h₁ : charListLt l₁ l₂ = true) (h₂ : charListLt l₂ l₃ = true) :
    charListLt l₁ l₃ = true := by
  induction l₁ generalizing l₂ l₃ with
  | nil =>
    cases l₂ with
    | nil => simp [charListLt] at h₁
    | cons b bs =>
      cases l₃ with
      | nil => simp [charListLt] at h₂
      | cons c cs => simp [charListLt]
  | cons a as ih =>
    cases l₂ with
    | nil => simp [charListLt] at h₁
    | cons b bs =>
      cases l₃ with
      | nil => simp [charListLt] at h₂
      | cons c cs =>
        simp only [charListLt] at h₁ h₂ ⊢
        rcases Nat.lt_trichotomy a.toNat b.toNat with hab | hab | hab <;>
          rcases Nat.lt_trichotomy b.toNat c.toNat with hbc | hbc | hbc
        · rw [if_pos (by omega)]
        · rw [if_pos (by omega)]
        · rw [if_neg (by omega), if_pos hbc] at h₂
          exact absurd h₂ (by simp)
        · rw [if_pos (by omega)]
        · rw [if_neg (by omega), if_neg (by omega)] at h₁
          rw [if_neg (by omega), if_neg (by omega)] at h₂
          rw [if_neg (by omega), if_neg (by omega)]
          exact ih bs cs h₁ h₂
        · rw [if_neg (by omega), if_pos hbc] at h₂
          exact absurd h₂ (by simp)
        · rw [if_neg (by omega), if_pos hab] at h₁
          exact absurd h₁ (by simp)
        · rw [if_neg (by omega), if_pos hab] at h₁
          exact absurd h₁ (by simp)
        · rw [if_neg (by omega), if_pos hab] at h₁
          exact absurd h₁ (by simp)

theorem charListLt_conn (l₁ l₂ : List Char)
    (h : charListLt l₁ l₂ = false) (h' : charListLt l₂ l₁ = false) : l₁ = l₂ := by
  induction l₁ generalizing l₂ with
  | nil =>
    cases l₂ with
    | nil => rfl
    | cons b bs => simp [charListLt] at h
  | cons a as ih =>
    cases l₂ with
    | nil => simp [charListLt] at h'
    | cons b bs =>
      simp only [charListLt] at h h'
      rcases Nat.lt_trichotomy a.toNat b.toNat with hab | hab | hab
      · rw [if_pos hab] at h
        exact absurd h (by simp)
      · have hab' : a = b := Char.eq_of_val_eq (UInt32.toNat.inj hab)
        subst hab'
        rw [if_neg (by omega), if_neg (by omega)] at h h'
        exact congrArg (a :: ·) (ih bs h h')
      · rw [if_pos hab] at h'
        exact absurd h' (by simp)

theorem charListLe_trans (x y z : List Char)
    (h₁ : charListLt y x = false) (h₂ : charListLt z y = false) :
    charListLt z x = false := by
  by_contra hzx'
  have hzx : charListLt z x = true := by
    cases hc : charListLt z x
    · exact absurd hc hzx'
    · rfl
  cases hxy : charListLt x y with
  | true =>
    have := charListLt_trans z x y hzx hxy
    rw [h₂] at this
    exact absurd this (by simp)
  | false =>
    have hxy' : x = y := charListLt_conn x y hxy h₁
    rw [hxy', h₂] at hzx
    exact absurd hzx (by simp)

theorem pyStrLe_trans (a b c : String)
    (h₁ : pyStrLe a b = true) (h₂ : pyStrLe b c = true) : pyStrLe a c = true := by
  simp only [pyStrLe, Bool.not_eq_true'] at h₁ h₂ ⊢
  exact charListLe_trans a.data b.data c.data h₁ h₂

theorem pyStrLe_total (a b : String) : pyStrLe a b = true ∨ pyStrLe b a = true := by
  simp only [pyStrLe, Bool.not_eq_true']
  cases hab : charListLt a.data b.data
  · right; rfl
  · left
    cases hba : charListLt b.data a.data
    · rfl
    · have := charListLt_trans a.data b.data a.data hab hba
      rw [charListLt_irrefl] at this
      exact absurd this (by simp)

/-- Python's `name.lower().endswith(".mp4")` from
`DriveDataSource.list_videos` (ASCII lowering, as produced for the
`.mp4` check). -/
def endsWithMp4 (name : String) : Bool :=
  List.isSuffixOf ".mp4".data (name.data.map Char.toLower)

/-! ### Drive data source (`src/backend/drive_datasource.py`) -/

/-- A file or folder entry as returned by the Drive files listing
(fields `id`, `name` requested in `_list_children_folders` /
`_list_children_files`). -/
structure DriveFile where
  id : String
  name : String
deriving DecidableEq, Repr

/-- An exception raised by the remote listing API. -/
inductive DriveErr where
  | listingError (msg : String)
deriving DecidableEq, Repr

/-- Oracle for the remote Drive service: for a parent folder id, either
the complete (pagination-accumulated) listing of its child folders
resp. child non-folder files, or a raised exception. -/
structure DriveState where
  folderChildren : String → Except DriveErr (List DriveFile)
  fileChildren : String → Except DriveErr (List DriveFile)

namespace DriveDataSource

/-- `DriveDataSource._list_children_folders`: the whole paged listing
loop sits inside `try`; on any raised exception the accumulated result
is discarded, the error is logged and `[]` is returned. -/
def list_children_folders (ds : DriveState) (parent_id : String) : List DriveFile :=
  match ds.folderChildren parent_id with
  | .ok children => children
  | .error _ => []

/-- `DriveDataSource._list_children_files` (every caller in the source
passes `mime_type=None`, so the optional extra mimeType filter is not
modelled): same catch-and-return-empty shape as the folder listing. -/
def list_children_files (ds : DriveState) (parent_id : String) : List DriveFile :=
  match ds.fileChildren parent_id with
  | .ok files => files
  | .error _ => []

/-- `DriveDataSource._find_child_folder_by_name`: first child folder of
`parent_id` whose name equals `name` exactly. -/
def find_child_folder_by_name (ds : DriveState) (parent_id name : String) :
    Option DriveFile :=
  (list_children_folders ds parent_id).find? (fun f => f.name == name)

/-- `DriveDataSource.list_patients`: names of the root folder's child
folders, sorted (Python `sorted`). -/
def list_patients (ds : DriveState) (root_folder_id : String) : List String :=
  pySort pyStrLe ((list_children_folders ds root_folder_id).map (fun f => f.name))

/-- `DriveDataSource.list_classes`: resolve the patient folder by name
under the root; keep, in the fixed order of `valid`, the valid class
names that occur among its child folder names. -/
def list_classes (ds : DriveState) (root_folder_id patient_id : String) : List String :=
  match find_child_folder_by_name ds root_folder_id patient_id with
  | none => []
  | some patient_folder =>
    let class_names := (list_children_folders ds patient_folder.id).map (fun f => f.name)
    let valid : List String := ["H-LUS", "C-LUS", "I-LUS"]
    valid.filter (fun c => class_names.contains c)

/-- `drive_datasource.DriveVideo` dataclass. -/
structure DriveVideo where
  patient_id : String
  class_id : String
  file_id : String
  file_name : String
deriving DecidableEq, Repr

/-- `DriveDataSource.list_videos`: resolve patient then class folder,
keep the child files whose lowered name ends in `.mp4`, pair each with
the given patient/class ids, and sort by file name. -/
def list_videos (ds : DriveState) (root_folder_id patient_id class_id : String) :
    List DriveVideo :=
  match find_child_folder_by_name ds root_folder_id patient_id with
  | none => []
  | some patient_folder =>
    match find_child_folder_by_name ds patient_folder.id class_id with
    | none => []
    | some class_folder =>
      let files := list_children_files ds class_folder.id
      let videos := (files.filter (fun f => endsWithMp4 f.name)).map
        (fun f => DriveVideo.mk patient_id class_id f.id f.name)
      pySort (fun a b => pyStrLe a.file_name b.file_name) videos

/-- One `downloader.next_chunk()` call of the streaming loop: either it
succeeds, leaving `data` in the buffer and reporting the `done` flag, or
it raises. -/
inductive FetchStep where
  | chunk (data : List Nat) (done : Bool)
  | raiseExc (msg : String)
deriving DecidableEq, Repr

/-- How a generator run ends: normal termination, an exception escaping
to the consumer, or the modelling fuel running out (never reached under
the hypotheses used below). -/
inductive GenOutcome where
  | finished
  | raised (msg : String)
  | outOfFuel
deriving DecidableEq, Repr

/-- The `while not done` loop body of
`DriveDataSource.download_video_stream` WITHOUT its surrounding
try/except: chunk `i` is fetched; on success, the buffer contents are
yielded when nonempty and the buffer is reset; on an exception the loop
ends with outcome `raised`. `fuel` bounds the number of iterations. -/
def stream_loop_raw (fetch : Nat → FetchStep) : Nat → Nat → List (List Nat) × GenOutcome
  | _, 0 => ([], .outOfFuel)
  | i, fuel + 1 =>
    match fetch i with
    | .raiseExc msg => ([], .raised msg)
    | .chunk data done =>
      let rest := if done then ([], .finished) else stream_loop_raw fetch (i + 1) fuel
      if data.isEmpty then rest else (data :: rest.1, rest.2)

/-- `DriveDataSource.download_video_stream`: the raw loop wrapped in the
source's `try/except Exception: ...; return`, which converts any raised
exception into a plain early `return` of the generator — so the
consumer sees the chunks yielded so far and then normal termination. -/
def download_video_stream (fetch : Nat → FetchStep) (fuel : Nat) :
    List (List Nat) × GenOutcome :=
  let r := stream_loop_raw fetch 0 fuel
  (r.1, match r.2 with
        | .raised _ => .finished
        | o => o)

end DriveDataSource

/-! ### Relational models and HTTP layer (`models.py`, `schemas.py`, `main.py`) -/

/-- `schemas.HistoryEntryCreate`: the POST /history request body. -/
structure HistoryEntryCreate where
  patient_id : String
  sequence_id : String
  previous_label : String
  updated_label : String
  annotator : String
deriving DecidableEq, Repr

/-- A row of the `history_entries` table (`models.HistoryEntry`);
`timestamp` is the `datetime.utcnow` default, modelled as `Nat` ticks. -/
structure HistoryRow where
  id : Nat
  patient_id : String
  sequence_id : String
  previous_label : String
  updated_label : String
  annotator : String
  timestamp : Nat
deriving DecidableEq, Repr

/-- A database-level error surfaced at commit time. -/
inductive DbError where
  | integrityError
deriving DecidableEq, Repr

/-- `main.add_history` (POST /history): build a fresh row from the
request body (id from the autoincrement key, timestamp from the
`datetime.utcnow` column default) and INSERT it unconditionally; at
`db.commit()` the `uq_patient_sequence` unique constraint of
`models.HistoryEntry` rejects the insert whenever a row with the same
(patient_id, sequence_id) pair already exists. -/
def add_history (db : List HistoryRow) (entry : HistoryEntryCreate)
    (new_id now : Nat) : Except DbError (List HistoryRow × HistoryRow) :=
  let db_entry : HistoryRow :=
    { id := new_id
      patient_id := entry.patient_id
      sequence_id := entry.sequence_id
      previous_label := entry.previous_label
      updated_label := entry.updated_label
      annotator := entry.annotator
      timestamp := now }
  if db.any (fun r => r.patient_id == entry.patient_id && r.sequence_id == entry.sequence_id) then
    .error .integrityError
  else
    .ok (db ++ [db_entry], db_entry)

/-- `main.list_history` (GET /history): `order_by(HistoryEntry.id.desc())`,
then, when the `annotator` query parameter is truthy (present and
nonempty — Python `if annotator:`), a `filter` on equality. -/
def list_history (db : List HistoryRow) (annotator : Option String) : List HistoryRow :=
  let q := pySort (fun a b => decide (b.id ≤ a.id)) db
  match annotator with
  | none => q
  | some a => if a == "" then q else q.filter (fun r => r.annotator == a)

/-- A row of the `users` table (`models.User`). -/
structure UserRow where
  id : Nat
  username : String
  password_hash : String
deriving DecidableEq, Repr

/-- `main.PASSWORD_SALT`. -/
def PASSWORD_SALT : String := "lus-labeler-demo-salt"

/-- `main.hash_password`: salted single-round digest of the password;
`hashlib.sha256(...).hexdigest()` is the abstract `digest` oracle, the
salting is the source's own code. -/
def hash_password (digest : String → String) (password : String) : String :=
  digest (PASSWORD_SALT ++ password)

/-- `main.verify_password`: plain (non-constant-time) equality of the
recomputed hash with the stored one. -/
def verify_password (digest : String → String) (plain_password hashed_password : String) :
    Bool :=
  hash_password digest plain_password == hashed_password

/-- `fastapi.HTTPException` as raised by the handlers. -/
structure HTTPExc where
  status_code : Nat
  detail : String
deriving DecidableEq, Repr

/-- `main.create_user` (POST /users): reject an existing username with
400, else insert the new row with the hashed password.  Mutating
handlers return the resulting `users` table alongside the response. -/
def create_user (digest : String → String) (db : List UserRow)
    (username password : String) (new_id : Nat) :
    Except HTTPExc UserRow × List UserRow :=
  match db.find? (fun u => u.username == username) with
  | some _ => (.error ⟨400, "Username already exists"⟩, db)
  | none =>
    let user_obj : UserRow := ⟨new_id, username, hash_password digest password⟩
    (.ok user_obj, db ++ [user_obj])

/-- `db.delete` of the row found by `.first()`: remove the first row
with the given username. -/
def delete_first (db : List UserRow) (username : String) : List UserRow :=
  match db with
  | [] => []
  | u :: rest => if u.username == username then rest else u :: delete_first rest username

/-- Mutation of the ORM object found by `.first()`: replace the
password hash of the first row with the given username. -/
def update_first (db : List UserRow) (username new_hash : String) : List UserRow :=
  match db with
  | [] => []
  | u :: rest =>
    if u.username == username then { u with password_hash := new_hash } :: rest
    else u :: update_first rest username new_hash

/-- `main.delete_user` (DELETE /users): 404 when the username is
absent, 403 when the password does not verify, else delete the row. -/
def delete_user (digest : String → String) (db : List UserRow)
    (username password : String) : Except HTTPExc String × List UserRow :=
  match db.find? (fun u => u.username == username) with
  | none => (.error ⟨404, "User not found"⟩, db)
  | some user_obj =>
    if !(verify_password digest password user_obj.password_hash) then
      (.error ⟨403, "Incorrect password"⟩, db)
    else
      (.ok "User deleted", delete_first db username)

/-- `main.login` (POST /auth/login): the same 401 response for an
unknown username and for a wrong password. -/
def login (digest : String → String) (db : List UserRow)
    (username password : String) : Except HTTPExc String :=
  match db.find? (fun u => u.username == username) with
  | none => .error ⟨401, "Invalid username or password"⟩
  | some user_obj =>
    if !(verify_password digest password user_obj.password_hash) then
      .error ⟨401, "Invalid username or password"⟩
    else
      .ok "ok"

/-- `main.change_password` (POST /auth/change-password): 404 when the
username is absent, 400 when the old password does not verify, else
store the hash of the new password on the found row. -/
def change_password (digest : String → String) (db : List UserRow)
    (username old_password new_password : String) :
    Except HTTPExc String × List UserRow :=
  match db.find? (fun u => u.username == username) with
  | none => (.error ⟨404, "User not found"⟩, db)
  | some user_obj =>
    if !(verify_password digest old_password user_obj.password_hash) then
      (.error ⟨400, "Old password is incorrect"⟩, db)
    else
      (.ok "Password updated successfully",
        update_first db username (hash_password digest new_password))

/-- Outcome of a router handler: a JSON value or an `HTTPException`
response. -/
inductive ApiResult (α : Type) where
  | ok (value : α)
  | httpError (status_code : Nat) (detail : String)
deriving DecidableEq, Repr

/-- `main.api_list_classes_for_patient`
(GET /api/patients/{patient_id}/classes): empty class list → 404. -/
def api_list_classes_for_patient (ds : DriveState) (root_folder_id patient_id : String) :
    ApiResult (List String) :=
  let classes := DriveDataSource.list_classes ds root_folder_id patient_id
  if classes.isEmpty then .httpError 404 "Patient or classes not found"
  else .ok classes

/-- The JSON objects returned by the videos endpoint. -/
structure VideoOut where
  file_name : String
  url : String
deriving DecidableEq, Repr

/-- `main.api_list_videos_for_patient_class`
(GET /api/patients/{patient_id}/classes/{class_id}/videos): an empty
video list is returned as an empty array, never as a 404. -/
def api_list_videos_for_patient_class (ds : DriveState)
    (root_folder_id patient_id class_id : String) : ApiResult (List VideoOut) :=
  let videos := DriveDataSource.list_videos ds root_folder_id patient_id class_id
  if videos.isEmpty then .ok []
  else .ok (videos.map (fun v => VideoOut.mk v.file_name ("/api/videos/" ++ v.file_id)))

/-! ### Claim theorems -/

/-- C1: the claim says POST /history upserts — a write for an existing
(patient_id, sequence_id) pair should mutate that row in place and
refresh its timestamp.  The code instead INSERTs unconditionally, so on
a database already holding a row for ("P1", "S1") a second write for
the same pair fails on the `uq_patient_sequence` uniqueness constraint
(an IntegrityError at commit) rather than updating the existing row. -/
theorem add_history_duplicate_pair_fails :
    add_history [⟨1, "P1", "S1", "A-line", "B-line", "ann", 100⟩]
      ⟨"P1", "S1", "B-line", "Consolidation", "ann"⟩ 2 200
      = .error .integrityError := rfl

/-- Two-row history table in which the larger id carries the OLDER
timestamp. -/
def c2Db : List HistoryRow :=
  [⟨1, "P1", "S1", "A-line", "B-line", "ann", 100⟩,
   ⟨2, "P2", "S2", "A-line", "B-line", "ann", 50⟩]

/-- C2 counterexample: `list_history` orders by `id.desc()`, not by the
timestamp attribute; on a table where row id 2 has timestamp 50 and row
id 1 has timestamp 100, the returned order (timestamps 50, 100) is not
newest-first by timestamp. -/
theorem list_history_not_timestamp_ordered :
    ¬ (list_history c2Db none).Pairwise (fun x y => y.timestamp ≤ x.timestamp) := by
  decide

/-- C2 (amended): GET /history returns the stored rows ordered by
descending id — i.e. newest-first by timestamp only when timestamps are
monotone in ids, as they are for rows produced by `add_history` — and,
when a nonempty annotator is supplied, exactly the rows whose annotator
equals it, in that same descending-id order. -/
theorem list_history_spec (db : List HistoryRow) (a : String) (ha : a ≠ "") :
    (list_history db none).Pairwise (fun x y => y.id ≤ x.id)
    ∧ (list_history db none).Perm db
    ∧ (list_history db (some a)).Pairwise (fun x y => y.id ≤ x.id)
    ∧ (list_history db (some a)).Perm (db.filter (fun r => r.annotator == a))
    ∧ ((∀ r s, r ∈ db → s ∈ db → r.id ≤ s.id → r.timestamp ≤ s.timestamp) →
        (list_history db none).Pairwise (fun x y => y.timestamp ≤ x.timestamp)) := by
  have htrans : ∀ x y z : HistoryRow, decide (y.id ≤ x.id) = true →
      decide (z.id ≤ y.id) = true → decide (z.id ≤ x.id) = true := by
    intro x y z h₁ h₂
    simp only [decide_eq_true_eq] at h₁ h₂ ⊢
    omega
  have htot : ∀ x y : HistoryRow,
      decide (y.id ≤ x.id) = true ∨ decide (x.id ≤ y.id) = true := by
    intro x y
    simp only [decide_eq_true_eq]
    omega
  have hpair : (pySort (fun a b => decide (b.id ≤ a.id)) db).Pairwise
      (fun x y => y.id ≤ x.id) :=
    (pySort_pairwise _ htrans htot db).imp (fun h => of_decide_eq_true h)
  have hperm : (pySort (fun a b => decide (b.id ≤ a.id)) db).Perm db :=
    pySort_perm _ db
  have hno : list_history db none = pySort (fun a b => decide (b.id ≤ a.id)) db := rfl
  have hsome : list_history db (some a) =
      (pySort (fun a b => decide (b.id ≤ a.id)) db).filter (fun r => r.annotator == a) := by
    simp only [list_history]
    rw [if_neg]
    simp only [beq_iff_eq]
    exact ha
  refine ⟨?_, ?_, ?_, ?_, ?_⟩
  · rw [hno]; exact hpair
  · rw [hno]; exact hperm
  · rw [hsome]; exact hpair.filter _
  · rw [hsome]; exact hperm.filter _
  · intro hm
    rw [hno]
    refine hpair.imp_of_mem ?_
    intro x y hx hy hxy
    exact hm y x (hperm.mem_iff.mp hy) (hperm.mem_iff.mp hx) hxy

/-- Three-row history table with two annotators, ids out of insertion
order. -/
def c2WitnessDb : List HistoryRow :=
  [⟨3, "P1", "S1", "A-line", "B-line", "alice", 300⟩,
   ⟨1, "P1", "S2", "A-line", "B-line", "bob", 100⟩,
   ⟨2, "P2", "S1", "B-line", "A-line", "alice", 200⟩]

/-- C2 witness: the amended statement instantiated at a concrete table
and annotator. -/
theorem list_history_spec_witness :
    ("alice" ≠ "")
    ∧ ((list_history c2WitnessDb none).Pairwise (fun x y => y.id ≤ x.id)
      ∧ (list_history c2WitnessDb none).Perm c2WitnessDb
      ∧ (list_history c2WitnessDb (some "alice")).Pairwise (fun x y => y.id ≤ x.id)
      ∧ (list_history c2WitnessDb (some "alice")).Perm
          (c2WitnessDb.filter (fun r => r.annotator == "alice"))
      ∧ ((∀ r s, r ∈ c2WitnessDb → s ∈ c2WitnessDb → r.id ≤ s.id →
            r.timestamp ≤ s.timestamp) →
          (list_history c2WitnessDb none).Pairwise
            (fun x y => y.timestamp ≤ x.timestamp))) :=
  ⟨by decide, list_history_spec c2WitnessDb "alice" (by decide)⟩

/-- C3: when the underlying fetch succeeds for the first two chunk
downloads (nonempty data, stream not yet done) and raises on the third,
the generator yields exactly those two chunks and terminates normally —
the exception is caught inside the generator and never reaches the
consumer. -/
theorem download_video_stream_two_chunks (fetch : Nat → DriveDataSource.FetchStep)
    (d1 d2 : List Nat) (msg : String) (fuel : Nat)
    (h0 : fetch 0 = .chunk d1 false) (h1 : fetch 1 = .chunk d2 false)
    (h2 : fetch 2 = .raiseExc msg)
    (hd1 : d1 ≠ []) (hd2 : d2 ≠ []) (hfuel : 3 ≤ fuel) :
    DriveDataSource.download_video_stream fetch fuel
      = ([d1, d2], DriveDataSource.GenOutcome.finished) := by
  obtain ⟨f, rfl⟩ : ∃ f, fuel = f + 3 := ⟨fuel - 3, by omega⟩
  simp [DriveDataSource.download_video_stream, DriveDataSource.stream_loop_raw,
    h0, h1, h2, List.isEmpty_eq_false.mpr hd1, List.isEmpty_eq_false.mpr hd2]

/-- A fetch oracle that succeeds twice and raises on the third call. -/
def c3Fetch : Nat → DriveDataSource.FetchStep := fun i =>
  if i == 0 then .chunk [10, 11] false
  else if i == 1 then .chunk [12] false
  else .raiseExc "transport error"

/-- C3 witness: the streaming theorem instantiated at a concrete fetch
oracle. -/
theorem download_video_stream_two_chunks_witness :
    c3Fetch 0 = .chunk [10, 11] false ∧ c3Fetch 1 = .chunk [12] false
    ∧ c3Fetch 2 = .raiseExc "transport error"
    ∧ DriveDataSource.download_video_stream c3Fetch 3
        = ([[10, 11], [12]], DriveDataSource.GenOutcome.finished) :=
  ⟨rfl, rfl, rfl,
    download_video_stream_two_chunks c3Fetch [10, 11] [12] "transport error" 3
      rfl rfl rfl (by decide) (by decide) (by decide)⟩

/-- C4: when the patient folder resolves, `list_classes` returns exactly
the names occurring both in the remote listing and in the fixed set
{H-LUS, C-LUS, I-LUS}, as a sublist of the fixed order [H-LUS, C-LUS,
I-LUS]; every unrecognized subfolder name is dropped. -/
theorem list_classes_spec (ds : DriveState) (root_folder_id patient_id : String)
    (pf : DriveFile)
    (hres : DriveDataSource.find_child_folder_by_name ds root_folder_id patient_id
      = some pf) :
    (∀ c, c ∈ DriveDataSource.list_classes ds root_folder_id patient_id ↔
        (c ∈ (["H-LUS", "C-LUS", "I-LUS"] : List String)
          ∧ c ∈ (DriveDataSource.list_children_folders ds pf.id).map (fun f => f.name)))
    ∧ (DriveDataSource.list_classes ds root_folder_id patient_id).Sublist
        ["H-LUS", "C-LUS", "I-LUS"] := by
  unfold DriveDataSource.list_classes
  rw [hres]
  constructor
  · intro c
    simp only [List.mem_filter, List.contains, List.elem_iff]
  · exact List.filter_sublist _

/-- A concrete Drive tree: one patient folder holding subfolders C-LUS,
X-other and H-LUS. -/
def c4Drive : DriveState :=
  { folderChildren := fun parent =>
      if parent == "root" then .ok [⟨"p1f", "Patient_1"⟩]
      else if parent == "p1f" then
        .ok [⟨"f1", "C-LUS"⟩, ⟨"f2", "X-other"⟩, ⟨"f3", "H-LUS"⟩]
      else .ok []
    fileChildren := fun _ => .ok [] }

/-- C4 witness: on the folder set {C-LUS, X-other, H-LUS} the class
list is exactly [H-LUS, C-LUS] — fixed order, unknown folder dropped. -/
theorem list_classes_spec_witness :
    DriveDataSource.find_child_folder_by_name c4Drive "root" "Patient_1"
      = some ⟨"p1f", "Patient_1"⟩
    ∧ ((∀ c, c ∈ DriveDataSource.list_classes c4Drive "root" "Patient_1" ↔
        (c ∈ (["H-LUS", "C-LUS", "I-LUS"] : List String)
          ∧ c ∈ (DriveDataSource.list_children_folders c4Drive "p1f").map (fun f => f.name)))
      ∧ (DriveDataSource.list_classes c4Drive "root" "Patient_1").Sublist
          ["H-LUS", "C-LUS", "I-LUS"])
    ∧ DriveDataSource.list_classes c4Drive "root" "Patient_1" = ["H-LUS", "C-LUS"] :=
  ⟨by decide,
    list_classes_spec c4Drive "root" "Patient_1" ⟨"p1f", "Patient_1"⟩ (by decide),
    by decide⟩

/-- C5: when patient and class folders resolve, `list_videos` keeps
exactly the files whose lowered name ends in ".mp4", sorted by file
name, and every returned record carries the given patient id and class
id together with the file id and name of a listed remote file. -/
theorem list_videos_spec (ds : DriveState)
    (root_folder_id patient_id class_id : String) (pf cf : DriveFile)
    (hp : DriveDataSource.find_child_folder_by_name ds root_folder_id patient_id = some pf)
    (hc : DriveDataSource.find_child_folder_by_name ds pf.id class_id = some cf) :
    (DriveDataSource.list_videos ds root_folder_id patient_id class_id).Pairwise
        (fun a b => pyStrLe a.file_name b.file_name = true)
    ∧ (DriveDataSource.list_videos ds root_folder_id patient_id class_id).Perm
        (((DriveDataSource.list_children_files ds cf.id).filter
            (fun f => endsWithMp4 f.name)).map
          (fun f => DriveDataSource.DriveVideo.mk patient_id class_id f.id f.name))
    ∧ ∀ v ∈ DriveDataSource.list_videos ds root_folder_id patient_id class_id,
        v.patient_id = patient_id ∧ v.class_id = class_id
        ∧ ∃ f ∈ DriveDataSource.list_children_files ds cf.id,
            endsWithMp4 f.name = true ∧ v.file_id = f.id ∧ v.file_name = f.name := by
  have hvids : DriveDataSource.list_videos ds root_folder_id patient_id class_id =
      pySort (fun a b => pyStrLe a.file_name b.file_name)
        (((DriveDataSource.list_children_files ds cf.id).filter
            (fun f => endsWithMp4 f.name)).map
          (fun f => DriveDataSource.DriveVideo.mk patient_id class_id f.id f.name)) := by
    simp only [DriveDataSource.list_videos, hp, hc]
  have hperm := pySort_perm (fun a b : DriveDataSource.DriveVideo => pyStrLe a.file_name b.file_name)
    (((DriveDataSource.list_children_files ds cf.id).filter
        (fun f => endsWithMp4 f.name)).map
      (fun f => DriveDataSource.DriveVideo.mk patient_id class_id f.id f.name))
  refine ⟨?_, ?_, ?_⟩
  · rw [hvids]
    exact pySort_pairwise
      (fun a b : DriveDataSource.DriveVideo => pyStrLe a.file_name b.file_name)
      (fun a b c h₁ h₂ => pyStrLe_trans _ _ _ h₁ h₂)
      (fun a b => pyStrLe_total _ _) _
  · rw [hvids]
    exact hperm
  · intro v hv
    rw [hvids] at hv
    have hv' := hperm.mem_iff.mp hv
    rcases List.mem_map.mp hv' with ⟨f, hf, rfl⟩
    rcases List.mem_filter.mp hf with ⟨hfmem, hfmp4⟩
    exact ⟨rfl, rfl, f, hfmem, hfmp4, rfl, rfl⟩

/-- A concrete Drive tree: one patient folder with one class folder
holding files b.mp4, a.mp4 and readme.txt. -/
def c5Drive : DriveState :=
  { folderChildren := fun parent =>
      if parent == "root" then .ok [⟨"p1f", "Patient_1"⟩]
      else if parent == "p1f" then .ok [⟨"hf", "H-LUS"⟩]
      else .ok []
    fileChildren := fun parent =>
      if parent == "hf" then
        .ok [⟨"idb", "b.mp4"⟩, ⟨"ida", "a.mp4"⟩, ⟨"idr", "readme.txt"⟩]
      else .ok [] }

/-- C5 witness: on files [b.mp4, a.mp4, readme.txt] the endpoint
returns videos for a.mp4 then b.mp4 only. -/
theorem list_videos_spec_witness :
    DriveDataSource.find_child_folder_by_name c5Drive "root" "Patient_1"
      = some ⟨"p1f", "Patient_1"⟩
    ∧ DriveDataSource.find_child_folder_by_name c5Drive "p1f" "H-LUS" = some ⟨"hf", "H-LUS"⟩
    ∧ ((DriveDataSource.list_videos c5Drive "root" "Patient_1" "H-LUS").Pairwise
        (fun a b => pyStrLe a.file_name b.file_name = true)
      ∧ (DriveDataSource.list_videos c5Drive "root" "Patient_1" "H-LUS").Perm
          (((DriveDataSource.list_children_files c5Drive "hf").filter
              (fun f => endsWithMp4 f.name)).map
            (fun f => DriveDataSource.DriveVideo.mk "Patient_1" "H-LUS" f.id f.name))
      ∧ ∀ v ∈ DriveDataSource.list_videos c5Drive "root" "Patient_1" "H-LUS",
          v.patient_id = "Patient_1" ∧ v.class_id = "H-LUS"
          ∧ ∃ f ∈ DriveDataSource.list_children_files c5Drive "hf",
              endsWithMp4 f.name = true ∧ v.file_id = f.id ∧ v.file_name = f.name)
    ∧ DriveDataSource.list_videos c5Drive "root" "Patient_1" "H-LUS"
        = [⟨"Patient_1", "H-LUS", "ida", "a.mp4"⟩, ⟨"Patient_1", "H-LUS", "idb", "b.mp4"⟩] :=
  ⟨by decide, by decide,
    list_videos_spec c5Drive "root" "Patient_1" "H-LUS" ⟨"p1f", "Patient_1"⟩ ⟨"hf", "H-LUS"⟩
      (by decide) (by decide),
    by decide⟩

/-- C6: a raised exception in a remote folder or file listing call is
caught and turned into the empty list, and with a remote store whose
listing calls all raise, `list_patients`, `list_classes` and
`list_videos` return empty results rather than raising. -/
theorem drive_listing_errors_swallowed (ds : DriveState)
    (root_folder_id patient_id class_id : String)
    (hF : ∀ p, ∃ e, ds.folderChildren p = .error e)
    (hf : ∀ p, ∃ e, ds.fileChildren p = .error e) :
    (∀ p, DriveDataSource.list_children_folders ds p = [])
    ∧ (∀ p, DriveDataSource.list_children_files ds p = [])
    ∧ DriveDataSource.list_patients ds root_folder_id = []
    ∧ DriveDataSource.list_classes ds root_folder_id patient_id = []
    ∧ DriveDataSource.list_videos ds root_folder_id patient_id class_id = [] := by
  have hcf : ∀ p, DriveDataSource.list_children_folders ds p = [] := by
    intro p
    obtain ⟨e, he⟩ := hF p
    unfold DriveDataSource.list_children_folders
    rw [he]
  have hcfi : ∀ p, DriveDataSource.list_children_files ds p = [] := by
    intro p
    obtain ⟨e, he⟩ := hf p
    unfold DriveDataSource.list_children_files
    rw [he]
  refine ⟨hcf, hcfi, ?_, ?_, ?_⟩
  · unfold DriveDataSource.list_patients
    rw [hcf root_folder_id]
    rfl
  · unfold DriveDataSource.list_classes DriveDataSource.find_child_folder_by_name
    rw [hcf root_folder_id]
    rfl
  · unfold DriveDataSource.list_videos DriveDataSource.find_child_folder_by_name
    rw [hcf root_folder_id]
    rfl

/-- A remote store whose every listing call raises. -/
def errDrive : DriveState :=
  { folderChildren := fun _ => .error (.listingError "network error")
    fileChildren := fun _ => .error (.listingError "network error") }

/-- C6 witness: the swallowing theorem instantiated at a store whose
calls all raise. -/
theorem drive_listing_errors_swallowed_witness :
    DriveDataSource.list_children_folders errDrive "anyFolder" = []
    ∧ DriveDataSource.list_children_files errDrive "anyFolder" = []
    ∧ DriveDataSource.list_patients errDrive "root" = []
    ∧ DriveDataSource.list_classes errDrive "root" "Patient_1" = []
    ∧ DriveDataSource.list_videos errDrive "root" "Patient_1" "H-LUS" = [] :=
  have H := drive_listing_errors_swallowed errDrive "root" "Patient_1" "H-LUS"
    (fun _ => ⟨.listingError "network error", rfl⟩)
    (fun _ => ⟨.listingError "network error", rfl⟩)
  ⟨H.1 "anyFolder", H.2.1 "anyFolder", H.2.2.1, H.2.2.2.1, H.2.2.2.2⟩

/-- C7: the router's not-found asymmetry — an empty or unresolvable
class list is surfaced as a 404, while the videos endpoint never
produces an HTTP error and renders an empty or unresolvable video list
as an empty array. -/
theorem router_classes_videos_asymmetry (ds : DriveState)
    (root_folder_id patient_id class_id : String) :
    (DriveDataSource.list_classes ds root_folder_id patient_id = [] →
      api_list_classes_for_patient ds root_folder_id patient_id
        = .httpError 404 "Patient or classes not found")
    ∧ (DriveDataSource.list_classes ds root_folder_id patient_id ≠ [] →
      api_list_classes_for_patient ds root_folder_id patient_id
        = .ok (DriveDataSource.list_classes ds root_folder_id patient_id))
    ∧ (∀ s d, api_list_videos_for_patient_class ds root_folder_id patient_id class_id
        ≠ .httpError s d)
    ∧ (DriveDataSource.list_videos ds root_folder_id patient_id class_id = [] →
      api_list_videos_for_patient_class ds root_folder_id patient_id class_id = .ok []) := by
  refine ⟨?_, ?_, ?_, ?_⟩
  · intro h
    simp only [api_list_classes_for_patient]
    rw [if_pos (List.isEmpty_iff.mpr h)]
  · intro h
    simp only [api_list_classes_for_patient]
    rw [if_neg]
    simp only [List.isEmpty_iff]
    exact h
  · intro s d
    simp only [api_list_videos_for_patient_class]
    split <;> simp
  · intro h
    simp only [api_list_videos_for_patient_class]
    rw [if_pos (List.isEmpty_iff.mpr h)]

/-- C7 witness: against the all-failing remote store, the classes
endpoint answers 404 while the videos endpoint answers an empty array. -/
theorem router_classes_videos_asymmetry_witness :
    api_list_classes_for_patient errDrive "root" "Patient_1"
      = .httpError 404 "Patient or classes not found"
    ∧ api_list_videos_for_patient_class errDrive "root" "Patient_1" "H-LUS" = .ok []
    ∧ api_list_videos_for_patient_class errDrive "root" "Patient_1" "H-LUS"
        ≠ .httpError 404 "Patient or classes not found" :=
  have H := router_classes_videos_asymmetry errDrive "root" "Patient_1" "H-LUS"
  ⟨H.1 (by decide), H.2.2.2 (by decide), H.2.2.1 404 "Patient or classes not found"⟩

/-- C8: the login path is indistinguishable between "username absent"
and "username present but wrong password" — both runs produce the very
same 401 response, so the login endpoint cannot be used to enumerate
usernames. -/
theorem login_indistinguishable (digest : String → String)
    (db₁ db₂ : List UserRow) (name₁ pw₁ name₂ pw₂ : String) (u₂ : UserRow)
    (h₁ : db₁.find? (fun u => u.username == name₁) = none)
    (h₂ : db₂.find? (fun u => u.username == name₂) = some u₂)
    (h₃ : verify_password digest pw₂ u₂.password_hash = false) :
    login digest db₁ name₁ pw₁ = login digest db₂ name₂ pw₂
    ∧ login digest db₁ name₁ pw₁ = .error ⟨401, "Invalid username or password"⟩ := by
  have e₁ : login digest db₁ name₁ pw₁ = .error ⟨401, "Invalid username or password"⟩ := by
    simp only [login]
    rw [h₁]
  have e₂ : login digest db₂ name₂ pw₂ = .error ⟨401, "Invalid username or password"⟩ := by
    simp [login, h₂, h₃]
  exact ⟨e₁.trans e₂.symm, e₁⟩

/-- The digest oracle used by the concrete witnesses (any function
works: the properties below do not depend on SHA-256 internals). -/
def idDigest : String → String := fun s => s

/-- A one-user table: alice with the hash of password "pw". -/
def c8Db : List UserRow := [⟨1, "alice", hash_password idDigest "pw"⟩]

/-- C8 witness: logging in as a nonexistent "mallory" and as "alice"
with a wrong password produce the identical 401 response. -/
theorem login_indistinguishable_witness :
    login idDigest [] "mallory" "pw" = login idDigest c8Db "alice" "wrong"
    ∧ login idDigest [] "mallory" "pw"
        = .error ⟨401, "Invalid username or password"⟩ :=
  login_indistinguishable idDigest [] c8Db "mallory" "pw" "alice" "wrong"
    ⟨1, "alice", hash_password idDigest "pw"⟩ rfl rfl (by decide)

/-- `delete_first` leaves no row carrying the deleted username when
usernames are unique (as the `users.username` column constraint
guarantees). -/
theorem delete_first_no_username (db : List UserRow) (name : String)
    (hnodup : (db.map (fun u => u.username)).Nodup) :
    ∀ r ∈ delete_first db name, r.username ≠ name := by
  induction db with
  | nil => intro r hr; simp [delete_first] at hr
  | cons v rest ih =>
    rw [List.map_cons] at hnodup
    rcases List.nodup_cons.mp hnodup with ⟨hv, hrest⟩
    intro r hr
    simp only [delete_first] at hr
    by_cases hveq : (v.username == name) = true
    · rw [if_pos hveq] at hr
      have hvname : v.username = name := beq_iff_eq.mp hveq
      intro hrname
      exact hv (List.mem_map.mpr ⟨r, hr, by rw [hrname, hvname]⟩)
    · rw [if_neg hveq] at hr
      rcases List.mem_cons.mp hr with rfl | hr'
      · exact fun hc => hveq (beq_iff_eq.mpr hc)
      · exact ih hrest r hr'

/-- Deleting a found row shrinks the table by exactly one row. -/
theorem delete_first_length (db : List UserRow) (name : String) (u : UserRow)
    (h : db.find? (fun x => x.username == name) = some u) :
    (delete_first db name).length + 1 = db.length := by
  induction db with
  | nil => simp [List.find?] at h
  | cons v rest ih =>
    by_cases hveq : (v.username == name) = true
    · simp [delete_first, hveq]
    · rw [List.find?_cons_of_neg _ (by simpa using hveq)] at h
      simp only [delete_first, if_neg hveq, List.length_cons]
      rw [← ih h]

/-- C9: DELETE /users answers 404 and leaves the table unchanged when
the username is absent; answers 403 and leaves the table unchanged when
the password does not verify against the stored hash; and removes the
user's row (exactly one row, no row with that username remains) when
the password verifies. -/
theorem delete_user_spec (digest : String → String) (db : List UserRow)
    (username password : String)
    (hnodup : (db.map (fun u => u.username)).Nodup) :
    (db.find? (fun u => u.username == username) = none →
      delete_user digest db username password = (.error ⟨404, "User not found"⟩, db))
    ∧ (∀ u, db.find? (fun x => x.username == username) = some u →
        verify_password digest password u.password_hash = false →
        delete_user digest db username password = (.error ⟨403, "Incorrect password"⟩, db))
    ∧ (∀ u, db.find? (fun x => x.username == username) = some u →
        verify_password digest password u.password_hash = true →
        delete_user digest db username password = (.ok "User deleted", delete_first db username)
        ∧ (∀ r ∈ (delete_user digest db username password).2, r.username ≠ username)
        ∧ (delete_user digest db username password).2.length + 1 = db.length) := by
  refine ⟨?_, ?_, ?_⟩
  · intro h
    simp only [delete_user]
    rw [h]
  · intro u hu hpw
    simp [delete_user, hu, hpw]
  · intro u hu hpw
    have hres : delete_user digest db username password
        = (.ok "User deleted", delete_first db username) := by
      simp [delete_user, hu, hpw]
    refine ⟨hres, ?_, ?_⟩
    · rw [hres]
      exact delete_first_no_username db username hnodup
    · rw [hres]
      exact delete_first_length db username u hu

/-- C9 witness: with alice stored, a wrong password gives 403 and keeps
the table intact; the right password removes the row. -/
theorem delete_user_spec_witness :
    ((c8Db.map (fun u => u.username)).Nodup)
    ∧ delete_user idDigest c8Db "alice" "wrong" = (.error ⟨403, "Incorrect password"⟩, c8Db)
    ∧ delete_user idDigest [] "alice" "pw" = (.error ⟨404, "User not found"⟩, [])
    ∧ delete_user idDigest c8Db "alice" "pw" = (.ok "User deleted", [])
    ∧ (delete_user idDigest c8Db "alice" "pw").2.length + 1 = c8Db.length :=
  have H := delete_user_spec idDigest c8Db "alice" "wrong" (by decide)
  have H' := delete_user_spec idDigest c8Db "alice" "pw" (by decide)
  have H'' := delete_user_spec idDigest [] "alice" "pw" (by decide)
  ⟨by decide,
    H.2.1 ⟨1, "alice", hash_password idDigest "pw"⟩ rfl (by decide),
    H''.1 rfl,
    (H'.2.2 ⟨1, "alice", hash_password idDigest "pw"⟩ rfl (by decide)).1,
    (H'.2.2 ⟨1, "alice", hash_password idDigest "pw"⟩ rfl (by decide)).2.2⟩

/-- Updating the password hash of the found row leaves it findable
under the same username, now carrying the new hash. -/
theorem find?_update_first (db : List UserRow) (username new_hash : String) (u : UserRow)
    (h : db.find? (fun x => x.username == username) = some u) :
    (update_first db username new_hash).find? (fun x => x.username == username)
      = some { u with password_hash := new_hash } := by
  induction db with
  | nil => simp [List.find?] at h
  | cons v rest ih =>
    by_cases hveq : (v.username == username) = true
    · simp only [List.find?, hveq] at h
      have hv : v = u := Option.some.inj h
      subst hv
      simp [update_first, List.find?, hveq]
    · rw [Bool.not_eq_true] at hveq
      simp only [List.find?, hveq] at h
      simp only [update_first, hveq, Bool.false_eq_true, if_false, List.find?]
      exact ih h

/-- C10: hashing round-trips — any password verifies against its own
stored hash, a password verifies against at most one of two distinct
stored hashes, a freshly created user can immediately log in with the
password used at creation, and after a successful password change the
user logs in with the new password. -/
theorem password_hash_roundtrip_spec (digest : String → String)
    (p h₁ h₂ : String) (db : List UserRow)
    (username password old_password new_password : String) (new_id : Nat) :
    verify_password digest p (hash_password digest p) = true
    ∧ (h₁ ≠ h₂ →
        ¬ (verify_password digest p h₁ = true ∧ verify_password digest p h₂ = true))
    ∧ (db.find? (fun u => u.username == username) = none →
        login digest (create_user digest db username password new_id).2 username password
          = .ok "ok")
    ∧ (∀ u, db.find? (fun x => x.username == username) = some u →
        verify_password digest old_password u.password_hash = true →
        login digest (change_password digest db username old_password new_password).2
          username new_password = .ok "ok") := by
  refine ⟨?_, ?_, ?_, ?_⟩
  · simp [verify_password]
  · rintro hne ⟨hv₁, hv₂⟩
    exact hne ((beq_iff_eq.mp hv₁).symm.trans (beq_iff_eq.mp hv₂))
  · intro h
    have hdb2 : (create_user digest db username password new_id).2
        = db ++ [⟨new_id, username, hash_password digest password⟩] := by
      simp [create_user, h]
    rw [hdb2]
    have hfind : (db ++ [(⟨new_id, username, hash_password digest password⟩ : UserRow)]).find?
        (fun u => u.username == username)
        = some ⟨new_id, username, hash_password digest password⟩ := by
      rw [List.find?_append, h]
      simp [List.find?]
    simp [login, hfind, verify_password]
  · intro u hu hold
    have hch : (change_password digest db username old_password new_password).2
        = update_first db username (hash_password digest new_password) := by
      simp [change_password, hu, hold]
    rw [hch]
    have hfind := find?_update_first db username (hash_password digest new_password) u hu
    simp [login, hfind, verify_password]

/-- C10 witness: with the identity digest, creating bob with password
"secret" lets bob log in, and changing alice's password from "pw" to
"newpw" lets alice log in with "newpw". -/
theorem password_hash_roundtrip_spec_witness :
    verify_password idDigest "pw" (hash_password idDigest "pw") = true
    ∧ ¬ (verify_password idDigest "pw" "h1" = true
          ∧ verify_password idDigest "pw" "h2" = true)
    ∧ login idDigest (create_user idDigest [] "bob" "secret" 1).2 "bob" "secret" = .ok "ok"
    ∧ login idDigest (change_password idDigest c8Db "alice" "pw" "newpw").2 "alice" "newpw"
        = .ok "ok" :=
  have H₁ := password_hash_roundtrip_spec idDigest "pw" "h1" "h2" [] "bob" "secret" "x" "y" 1
  have H₂ := password_hash_roundtrip_spec idDigest "pw" "h1" "h2" c8Db "alice" "pw" "pw" "newpw" 2
  ⟨H₁.1, H₁.2.1 (by decide), H₁.2.2.1 rfl,
    H₂.2.2.2 ⟨1, "alice", hash_password idDigest "pw"⟩ rfl (by decide)⟩
